import Mathlib

/-!
Verification of the core of the `regular` job scheduler against its Go source.

The development shallowly embeds the relevant parts of the source:

* the per-queue job runner (`addJob`, `activateQueueHead`, the completion
  step of `runQueueHead`) from the current `jobRunner`;
* the scheduler loop (`addDueJobsToQueue`, the catch-up logic of
  `schedule`) from `jobscheduler.go`;
* the predicate dispatch of `JobConfig.schedule` from `jobconfig.go`;
* the enabled-flag handling of `loadJob` from `jobconfig.go`;
* the completion store (`saveCompletedJob`, `saveLogFile`,
  `getLastCompleted`) from `appdb.go`;
* `notifyIfNeeded` and `CompletedJob.IsSuccess`;
* `jobScheduler.update` from `jobscheduler.go`.

Go maps are modelled as association lists with first-match lookup and
replace-or-append assignment.  Starlark evaluation is modelled by its
observable outcome (the value returned by a call, the set of module-global
assignments produced by executing a file).  Wall-clock instants are modelled
as natural numbers of seconds; database timestamps as integers.  Fallible
database operations take an oracle `Nat → Bool` giving the success of each
sequential statement, so that both the success and the failure paths of the
transaction code are represented.
-/

namespace Regular

/-! ## Association-list model of Go maps -/

/-- Lookup in a Go map modelled as an association list (first match wins). -/
def getAssoc {β : Type} (l : List (String × β)) (k : String) : Option β :=
  match l with
  | [] => none
  | (k₀, v₀) :: rest => if k₀ = k then some v₀ else getAssoc rest k

/-- Assignment `m[k] = v` in a Go map: replace the first binding of `k`,
or append a new binding. -/
def setAssoc {β : Type} (l : List (String × β)) (k : String) (v : β) :
    List (String × β) :=
  match l with
  | [] => [(k, v)]
  | (k₀, v₀) :: rest =>
      if k₀ = k then (k, v) :: rest else (k₀, v₀) :: setAssoc rest k v

/-! ## Data model -/

/-- Notification modes, from `parseNotifyMode`. -/
inductive NotifyMode
  | always
  | onFailure
  | never
  deriving DecidableEq, Repr

/-- The per-job configuration produced by `loadJob` (fields relevant to the
claims; the opaque `should_run` callable is modelled by the outcome of
calling it, passed separately where needed). -/
structure JobConfig where
  name : String
  command : List String
  enabled : Bool
  log : Bool
  queue : String
  duplicate : Bool
  jitter : Nat
  notify : NotifyMode
  deriving DecidableEq, Repr

/-- `JobConfig.QueueName`: the queue of a job defaults to its name. -/
def JobConfig.QueueName (j : JobConfig) : String :=
  if j.queue = "" then j.name else j.queue

/-- A completed-job record (`CompletedJob` in `completedjob.go`), timestamps
as integer instants. -/
structure CompletedJob where
  error : String
  exitStatus : Int
  started : Int
  finished : Int
  deriving DecidableEq, Repr

/-- `CompletedJob.IsSuccess`. -/
def CompletedJob.IsSuccess (cj : CompletedJob) : Bool :=
  cj.exitStatus == 0 && cj.error == ""

/-! ## Queue runner (from the current `jobRunner`)

State of one queue: the `activeJob` flag and the FIFO list of waiting jobs.
The runner state is the Go map from queue name to queue. -/

/-- One job queue (`jobQueue`). -/
structure JobQueue where
  activeJob : Bool
  jobs : List JobConfig
  deriving DecidableEq, Repr

/-- `newJobQueue`. -/
def newJobQueue : JobQueue :=
  { activeJob := false, jobs := [] }

/-- The queue map of the runner (`jobRunner.queues`). -/
def RunnerState : Type :=
  List (String × JobQueue)

instance : DecidableEq RunnerState := by
  unfold RunnerState
  infer_instance

instance : Repr RunnerState :=
  inferInstanceAs (Repr (List (String × JobQueue)))

/-- `jobRunner.addJob`: resolve the queue by `job.QueueName()`, creating it
lazily; when `job.Duplicate` is false and a job with the same name is
already waiting, return without change; otherwise append to the tail. -/
def addJob (r : RunnerState) (job : JobConfig) : RunnerState :=
  -- `queue, ok := r.queues[queueName]; if !ok { queue = newJobQueue(); r.queues[queueName] = queue }`
  -- then `if !job.Duplicate { for ... { if otherJob.Name == job.Name { return } } }`
  -- then `queue.jobs = append(queue.jobs, job); r.queues[queueName] = queue`
  match getAssoc r job.QueueName with
  | none =>
      let r₁ := setAssoc r job.QueueName newJobQueue
      if job.duplicate = false ∧ (newJobQueue.jobs.any fun other => other.name == job.name) then
        r₁
      else
        setAssoc r₁ job.QueueName { newJobQueue with jobs := newJobQueue.jobs ++ [job] }
  | some queue =>
      if job.duplicate = false ∧ (queue.jobs.any fun other => other.name == job.name) then
        r
      else
        setAssoc r job.QueueName { queue with jobs := queue.jobs ++ [job] }

/-- `jobRunner.activateQueueHead`: error on a nonexistent queue; nothing when
the queue is active or empty; otherwise raise the `activeJob` flag and
return the head job without removing it. -/
def activateQueueHead (r : RunnerState) (queueName : String) :
    Except String (Option JobConfig × RunnerState) :=
  match getAssoc r queueName with
  | none => .error ("requested to run head of nonexistent queue: " ++ queueName)
  | some queue =>
      if queue.activeJob = true ∨ queue.jobs.length = 0 then
        .ok (none, r)
      else
        match queue.jobs with
        | [] => .ok (none, r)
        | job :: _ =>
            .ok (some job, setAssoc r queueName { queue with activeJob := true })

/-- The queue mutation performed by `jobRunner.runQueueHead` after the
subprocess has produced its completion record: lower the `activeJob` flag
and drop the head of the waiting list. -/
def finishQueueHead (r : RunnerState) (queueName : String) : RunnerState :=
  match getAssoc r queueName with
  | none => r
  | some queue =>
      setAssoc r queueName { queue with activeJob := false, jobs := queue.jobs.drop 1 }

/-- Runner states reachable from the initial empty queue map by the queue
operations of the runner. -/
inductive Reachable : RunnerState → Prop
  | init : Reachable []
  | add {r : RunnerState} (j : JobConfig) : Reachable r → Reachable (addJob r j)
  | activate {r r' : RunnerState} (q : String) (oj : Option JobConfig) :
      Reachable r → activateQueueHead r q = .ok (oj, r') → Reachable r'
  | finish {r : RunnerState} (q : String) : Reachable r → Reachable (finishQueueHead r q)

/-- No two waiting jobs that both forbid duplicates share a name. -/
def NoDupNameFalse (l : List JobConfig) : Prop :=
  l.Pairwise fun a b => a.name = b.name → a.duplicate = true ∨ b.duplicate = true

/-- All queues of a runner state satisfy the duplicate invariant. -/
def QueuesOK (r : RunnerState) : Prop :=
  ∀ qn queue, getAssoc r qn = some queue → NoDupNameFalse queue.jobs

/-! ## Predicate dispatch (`JobConfig.schedule` in `jobconfig.go`)

A Starlark value returned by calling `should_run` is modelled by `SValue`;
the call itself is modelled by its outcome, an `Except` value where
`error` stands for `starlark.Call` returning an error (the callable threw). -/

/-- A Starlark value, as far as the dispatch on the result of `should_run`
observes it. -/
inductive SValue
  | bool (b : Bool)
  | int (n : Int)
  | str (s : String)
  | noneVal
  deriving DecidableEq, Repr

/-- Error type carrying the job name, from `newJobError`. -/
structure JobError where
  jobName : String
  msg : String
  deriving DecidableEq, Repr

/-- `JobConfig.schedule` (the part after the disabled check and the call):
dispatch on the result of calling `should_run`.  `callResult` is the outcome
of `starlark.Call(thread, j.ShouldRun, nil, kvpairs)`.  Exactly
`starlark.True` enqueues via `runner.addJob`; exactly `starlark.False` does
nothing; an error from the call, or any other value, is an error. -/
def JobConfig.schedule (j : JobConfig) (callResult : Except String SValue)
    (runner : RunnerState) : Except String RunnerState :=
  if j.enabled = false then
    .ok runner
  else
    match callResult with
    | .error e => .error ("failed to call should_run: " ++ e)
    | .ok v =>
        match v with
        | .bool false => .ok runner
        | .bool true => .ok (addJob runner j)
        | _ => .error "should_run returned bad value"

/-- Whether `JobConfig.schedule` returns an error for a given call outcome
(this does not depend on the runner state). -/
def schedFails (j : JobConfig) (callResult : Except String SValue) : Bool :=
  j.enabled &&
    match callResult with
    | .error _ => true
    | .ok (.bool _) => false
    | .ok _ => true

/-! ## Scheduler loop (`jobscheduler.go`)

`addDueJobsToQueue` iterates over the job store and calls
`job.addToQueueIfDue(runner, t)` for each job, returning a job-named error
as soon as one evaluation fails.  The store iteration order is a parameter
(Go map iteration order is arbitrary).  The outcome records, besides the
runner state and the error, the trace of jobs whose predicate was invoked
(an enabled job reaching its turn has its callable invoked). -/

/-- Outcome of one `addDueJobsToQueue` pass. -/
structure AddDueOutcome where
  runner : RunnerState
  err : Option JobError
  trace : List String
  deriving DecidableEq, Repr

/-- `jobScheduler.addDueJobsToQueue` at one evaluation instant: `eval name`
is the outcome of calling the `should_run` of the named job at that
instant. -/
def addDueJobsToQueue (jobs : List (String × JobConfig))
    (eval : String → Except String SValue) (r : RunnerState) : AddDueOutcome :=
  match jobs with
  | [] => { runner := r, err := none, trace := [] }
  | (name, j) :: rest =>
      let t₀ : List String := if j.enabled then [name] else []
      match j.schedule (eval name) r with
      | .error e =>
          { runner := r, err := some { jobName := name, msg := "scheduling error: " ++ e },
            trace := t₀ }
      | .ok r' =>
          let out := addDueJobsToQueue rest eval r'
          { runner := out.runner, err := out.err, trace := t₀ ++ out.trace }

/-- `maxMissedTime`: one hour, in seconds. -/
def maxMissedTime : Nat := 3600

/-- The inner catch-up loop of `jobScheduler.schedule`:
`for t := last; t.Before(current); t = t.Add(time.Minute)`. -/
def catchUpTimes (current : Nat) (t : Nat) : List Nat :=
  if t < current then t :: catchUpTimes current (t + 60) else []
termination_by current - t
decreasing_by omega

/-- The evaluation instants of one ticker firing of `jobScheduler.schedule`:
clamp `last` to `current` when more than `maxMissed` has elapsed, then step
through the interval one minute at a time. -/
def tickEvalTimes (last current maxMissed : Nat) : List Nat :=
  let start := if current - last > maxMissed then current else last
  catchUpTimes current start

/-- Run `addDueJobsToQueue` at each catch-up instant of one ticker firing,
stopping at the first error (the `return err` in the loop body of
`schedule`).  The trace pairs each invoked job name with the instant. -/
def runCatchUp (jobs : List (String × JobConfig))
    (eval : Nat → String → Except String SValue) :
    List Nat → RunnerState → RunnerState × Option JobError × List (String × Nat)
  | [], r => (r, none, [])
  | t :: ts, r =>
      let out := addDueJobsToQueue jobs (eval t) r
      match out.err with
      | some e => (out.runner, some e, out.trace.map fun n => (n, t))
      | none =>
          let rest := runCatchUp jobs eval ts out.runner
          (rest.1, rest.2.1, (out.trace.map fun n => (n, t)) ++ rest.2.2)

/-- Outcome of the scheduler loop over a sequence of ticker firings. -/
structure SchedOutcome where
  runner : RunnerState
  err : Option JobError
  processed : List Nat
  deriving DecidableEq, Repr

/-- The ticker loop of `jobScheduler.schedule` over the firing instants
`firings`, starting with previous instant `last`: each firing evaluates the
catch-up instants and the loop returns (stops) on the first error. -/
def scheduleRun (jobs : List (String × JobConfig))
    (eval : Nat → String → Except String SValue) (maxMissed : Nat) :
    Nat → List Nat → RunnerState → SchedOutcome
  | _, [], r => { runner := r, err := none, processed := [] }
  | last, c :: rest, r =>
      match runCatchUp jobs eval (tickEvalTimes last c maxMissed) r with
      | (r', some e, _) => { runner := r', err := some e, processed := [c] }
      | (r', none, _) =>
          let out := scheduleRun jobs eval maxMissed c rest r'
          { runner := out.runner, err := out.err, processed := c :: out.processed }

/-! ## Job loader (`loadJob` in `jobconfig.go`)

Executing a Starlark config file is modelled by the set of top-level
assignments the module performs.  Per Starlark semantics
(go.starlark.net), a top-level assignment to a name that also appears in
the predeclared environment binds a module global that shadows the
predeclared name; the predeclared dictionary itself is never mutated by
execution.  `execFile` returns the pair (module globals, predeclared
environment after execution). -/

/-- A config module, characterised by its top-level global assignments.
Only the `enabled` assignment matters for the enabled-flag claims. -/
structure StarModule where
  assigns : List (String × SValue)
  deriving DecidableEq, Repr

/-- The predeclared environment handed to `starlark.ExecFileOptions`
(the bindings relevant here; `enabledVar` is predeclared as `True`). -/
def loadJobPredeclared : List (String × SValue) :=
  [("enabled", SValue.bool true)]

/-- `starlark.ExecFileOptions`: returns the module globals; the predeclared
environment is unchanged by execution (assignments shadow it, they do not
mutate it). -/
def execFile (m : StarModule) : List (String × SValue) × List (String × SValue) :=
  (m.assigns, loadJobPredeclared)

/-- `starstruct.FromStarlark` on a Bool-tagged field: absent leaves the Go
zero value `false`; a present Bool sets the field; a present non-Bool value
is a conversion error. -/
def starstructBool (globals : List (String × SValue)) (key : String) :
    Except String Bool :=
  match getAssoc globals key with
  | none => .ok false
  | some (.bool b) => .ok b
  | some _ => .error "failed to convert job to struct"

/-- The enabled-flag computation of `loadJob`: first
`starstruct.FromStarlark(stringDict, &job)` fills `job.Enabled` from the
module global `enabled` (the value bound to `_enabledFromStruct` below);
then the final statement
`job.Enabled = predeclared[enabledVar] == starlark.True` overwrites it with
a comparison against the (unmutated) predeclared binding. -/
def loadJobEnabled (m : StarModule) : Except String Bool :=
  match starstructBool (execFile m).1 "enabled" with
  | .error e => .error e
  | .ok _enabledFromStruct =>
      .ok (getAssoc (execFile m).2 "enabled" == some (SValue.bool true))

/-! ## Completion store (`appdb.go`)

The store is the pair of tables `completed_jobs` and `job_logs`; `nextId`
models the next `INTEGER PRIMARY KEY` value.  Each SQL statement of
`saveCompletedJob` may fail; the oracle gives the outcome of the k-th
statement executed inside the transaction.  A log file is `none` when
`os.Open` reports that it does not exist (`saveLogFile` then skips it), and
`some lines` for the captured lines otherwise. -/

/-- One row of `completed_jobs`. -/
structure CompletedRow where
  id : Nat
  jobName : String
  error : String
  exitStatus : Int
  started : Int
  finished : Int
  deriving DecidableEq, Repr

/-- One row of `job_logs`. -/
structure LogRow where
  completedJobId : Nat
  logName : String
  lineNumber : Nat
  line : String
  deriving DecidableEq, Repr

/-- The database state. -/
structure DBState where
  completedJobs : List CompletedRow
  jobLogs : List LogRow
  nextId : Nat
  deriving DecidableEq, Repr

/-- Pending writes of an open transaction. -/
structure TxState where
  rows : List CompletedRow
  logRows : List LogRow
  deriving DecidableEq, Repr

/-- The insert loop of `saveLogFile` over the scanned lines, starting at
`lineNum`; `k` counts the SQL statements executed so far in the
transaction. -/
def saveLogFileLines (oracle : Nat → Bool) (jobId : Nat) (logName : String) :
    List String → Nat → Nat → TxState → Except String TxState × Nat
  | [], _, k, tx => (.ok tx, k)
  | line :: rest, lineNum, k, tx =>
      if oracle k then
        saveLogFileLines oracle jobId logName rest (lineNum + 1) (k + 1)
          { tx with logRows := tx.logRows ++
              [{ completedJobId := jobId, logName := logName,
                 lineNumber := lineNum, line := line }] }
      else
        (.error "failed to insert log line", k + 1)

/-- `appDB.saveLogFile`: a missing file is skipped; otherwise its lines are
inserted one by one, numbered from 1. -/
def saveLogFile (oracle : Nat → Bool) (jobId : Nat) (logName : String)
    (file : Option (List String)) (k : Nat) (tx : TxState) :
    Except String TxState × Nat :=
  match file with
  | none => (.ok tx, k)
  | some lines => saveLogFileLines oracle jobId logName lines 1 k tx

/-- The loop of `saveCompletedJob` over the log files. -/
def saveLogFiles (oracle : Nat → Bool) (jobId : Nat) :
    List (String × Option (List String)) → Nat → TxState →
    Except String TxState × Nat
  | [], k, tx => (.ok tx, k)
  | (logName, file) :: rest, k, tx =>
      match saveLogFile oracle jobId logName file k tx with
      | (.ok tx', k') => saveLogFiles oracle jobId rest k' tx'
      | (.error e, k') => (.error e, k')

/-- `appDB.saveCompletedJob`: inside one transaction, insert the
completed-job row, then the lines of each log file; commit at the end.  Any
failure returns the error and (through the deferred rollback) leaves the
database unchanged. -/
def saveCompletedJob (oracle : Nat → Bool) (db : DBState) (jobName : String)
    (completed : CompletedJob) (logs : List (String × Option (List String))) :
    Except String Unit × DBState :=
  -- statement 0: `INSERT INTO completed_jobs ...`
  if oracle 0 = false then
    (.error "failed to insert completed job", db)
  else
    match saveLogFiles oracle db.nextId logs 1
        { rows := [{ id := db.nextId, jobName := jobName, error := completed.error,
                     exitStatus := completed.exitStatus,
                     started := completed.started, finished := completed.finished }],
          logRows := [] } with
    | (.error e, _) => (.error e, db)
    | (.ok tx', k) =>
        -- `tx.Commit()`
        if oracle k then
          (.ok (), { completedJobs := db.completedJobs ++ tx'.rows,
                     jobLogs := db.jobLogs ++ tx'.logRows,
                     nextId := db.nextId + 1 })
        else
          (.error "failed to commit", db)

/-- `ORDER BY id DESC LIMIT 1`: the row with the greatest id, if any. -/
def rowMaxId : List CompletedRow → Option CompletedRow
  | [] => none
  | r :: rest =>
      match rowMaxId rest with
      | none => some r
      | some m => some (if r.id > m.id then r else m)

/-- `appDB.getLastCompleted`: the most recently inserted `completed_jobs`
row for the name, projected to a `CompletedJob`, or nothing
(`sql.ErrNoRows` maps to `nil, nil`). -/
def getLastCompleted (db : DBState) (jobName : String) : Option CompletedJob :=
  (rowMaxId (db.completedJobs.filter fun r => r.jobName == jobName)).map
    fun r => { error := r.error, exitStatus := r.exitStatus,
               started := r.started, finished := r.finished }

/-- All stored row ids are below the next primary-key value. -/
def wfDB (db : DBState) : Prop :=
  ∀ r ∈ db.completedJobs, r.id < db.nextId

/-- The `job_logs` rows produced by a successful save of the given log
files for the given completed-job id. -/
def expectedLogRows (jobId : Nat) (logs : List (String × Option (List String))) :
    List LogRow :=
  logs.flatMap fun p =>
    ((p.2.getD []).enumFrom 1).map fun q =>
      { completedJobId := jobId, logName := p.1, lineNumber := q.1, line := q.2 }

/-! ## Notification (`notifyIfNeeded`) -/

/-- `notifyIfNeeded`: skip when the mode is `never`; notify when the mode is
`always`, or when it is `on-failure` and the job did not succeed; otherwise
skip.  The Bool component records whether the notifier was invoked. -/
def notifyIfNeeded (notify : String → CompletedJob → Except String Unit)
    (mode : NotifyMode) (jobName : String) (completed : CompletedJob) :
    Bool × Except String Unit :=
  if mode = .never then
    (false, .ok ())
  else if ¬(mode = .always ∨ (mode = .onFailure ∧ completed.IsSuccess = false)) then
    (false, .ok ())
  else
    (true, notify jobName completed)

/-! ## Job-store update (`jobScheduler.update`)

The outcomes of loading the two env files and of `loadJob` are parameters:
an env file load is `ok env`, `notExist` (skipped silently), or `err`
(malformed: the update fails); `loadJobFn` maps the layered environment to
the outcome of evaluating the config module. -/

/-- Outcome of `denv.Load` for one env file. -/
inductive EnvLoadResult
  | ok (env : List (String × String))
  | notExist
  | err (msg : String)

/-- `denv.Merge`: later bindings win. -/
def mergeEnv (a b : List (String × String)) : List (String × String) :=
  b.foldl (fun acc p => setAssoc acc p.1 p.2) a

/-- The result constants `jobsNoChanges`, `jobsAddedNew`, `jobsUpdated`. -/
inductive UpdateJobsResult
  | noChanges
  | addedNew
  | updated
  deriving DecidableEq, Repr

/-- Outcome of `jobScheduler.update`: the result code, the loaded job if
any, the error if any, and the job store after the call. -/
structure UpdateOutcome where
  res : UpdateJobsResult
  job : Option JobConfig
  err : Option String
  store : List (String × JobConfig)

/-- One iteration of the env-file loop of `jobScheduler.update`:
`newEnv, err := denv.Load(...); if err == nil { env = denv.Merge(env, newEnv) }
else if !os.IsNotExist(err) { return ... error ... }`. -/
def applyEnvLoad (env : List (String × String)) (res : EnvLoadResult)
    (which : String) : Except String (List (String × String)) :=
  match res with
  | .ok newEnv => .ok (mergeEnv env newEnv)
  | .notExist => .ok env
  | .err msg => .error ("failed to load " ++ which ++ " env file: " ++ msg)

/-- `jobScheduler.update`: layer the environment (process env, global env
file, job env file, `JOB_DIR`), load the job, and only on success replace
the entry under the job name in the store. -/
def updateJob (store : List (String × JobConfig)) (jobName jobDir : String)
    (osEnv : List (String × String)) (globalLoad jobLoad : EnvLoadResult)
    (loadJobFn : List (String × String) → Except String JobConfig) :
    UpdateOutcome :=
  match applyEnvLoad osEnv globalLoad "global" with
  | .error msg =>
      { res := .noChanges, job := none, err := some msg, store := store }
  | .ok env₁ =>
      match applyEnvLoad env₁ jobLoad "job" with
      | .error msg =>
          { res := .noChanges, job := none, err := some msg, store := store }
      | .ok env₂ =>
          -- `env[jobDirEnvVar] = jobDir`
          match loadJobFn (setAssoc env₂ "REGULAR_JOB_DIR" jobDir) with
          | .error msg =>
              { res := .noChanges, job := none,
                err := some ("failed to load job: " ++ msg), store := store }
          | .ok job =>
              { res := if (getAssoc store jobName).isSome then .updated else .addedNew,
                job := some job, err := none, store := setAssoc store jobName job }

/-! ## Concrete configurations used in counterexamples and witnesses -/

/-- A job whose module assigned `enabled = False`; `loadJob` nevertheless
produced `Enabled = true` (see the claim about the enabled flag). -/
def disabledIntentJob : JobConfig :=
  { name := "dj", command := ["./job"], enabled := true, log := true,
    queue := "", duplicate := false, jitter := 0, notify := .onFailure }

/-- Job `a` of the scheduler-tick counterexample. -/
def cJobA : JobConfig :=
  { name := "a", command := ["./job"], enabled := true, log := true,
    queue := "", duplicate := false, jitter := 0, notify := .onFailure }

/-- Job `b` of the scheduler-tick counterexample. -/
def cJobB : JobConfig :=
  { name := "b", command := ["./job"], enabled := true, log := true,
    queue := "", duplicate := false, jitter := 0, notify := .onFailure }

/-- The two-job store of the scheduler-tick counterexample. -/
def c1Jobs : List (String × JobConfig) :=
  [("a", cJobA), ("b", cJobB)]

/-- At the tick under consideration, the predicate of `a` returns a
non-Boolean value and the predicate of `b` returns `True`. -/
def c1Eval : String → Except String SValue :=
  fun name => if name = "a" then .ok (.int 1) else .ok (.bool true)

/-- A job used in queue-runner witnesses. -/
def wJob1 : JobConfig :=
  { name := "w1", command := ["./job"], enabled := true, log := true,
    queue := "q", duplicate := true, jitter := 0, notify := .onFailure }

/-- A second job used in queue-runner witnesses. -/
def wJob2 : JobConfig :=
  { name := "w2", command := ["./job"], enabled := true, log := true,
    queue := "q", duplicate := true, jitter := 0, notify := .onFailure }

/-- A duplicate-forbidding job used in queue-runner witnesses. -/
def wDupJob : JobConfig :=
  { name := "d", command := ["./job"], enabled := true, log := true,
    queue := "q", duplicate := false, jitter := 0, notify := .onFailure }

/-- A concrete inactive queue holding two waiting jobs. -/
def c3q : JobQueue :=
  { activeJob := false, jobs := [wJob1, wJob2] }

/-- A concrete runner state holding the queue `c3q` under the name `q`. -/
def c3r : RunnerState :=
  [("q", c3q)]

/-- A concrete queue holding one duplicate-forbidding waiting job. -/
def c4q : JobQueue :=
  { activeJob := false, jobs := [wDupJob] }

/-- A concrete runner state holding the queue `c4q` under the name `q`. -/
def c4r : RunnerState :=
  [("q", c4q)]

/-! # Theorems -/

/-! ## Association-list lemmas -/

theorem getAssoc_setAssoc_self {β : Type} (l : List (String × β)) (k : String) (v : β) :
    getAssoc (setAssoc l k v) k = some v := by
  induction l with
  | nil => simp [getAssoc, setAssoc]
  | cons hd tl ih =>
      obtain ⟨k₀, v₀⟩ := hd
      by_cases h : k₀ = k
      · subst h
        simp [getAssoc, setAssoc]
      · simp [getAssoc, setAssoc, h, ih]

theorem getAssoc_setAssoc_ne {β : Type} (l : List (String × β)) (k k' : String) (v : β)
    (h : k' ≠ k) : getAssoc (setAssoc l k v) k' = getAssoc l k' := by
  induction l with
  | nil => simp [getAssoc, setAssoc, Ne.symm h]
  | cons hd tl ih =>
      obtain ⟨k₀, v₀⟩ := hd
      by_cases hk : k₀ = k
      · subst hk
        simp [getAssoc, setAssoc, Ne.symm h]
      · by_cases hk' : k₀ = k'
        · subst hk'
          simp [getAssoc, setAssoc, h]
        · simp [getAssoc, setAssoc, hk, hk', ih]

/-! ## Queue-runner lemmas -/

theorem queuesOK_nil : QueuesOK [] := by
  intro qn queue h
  simp [getAssoc] at h

theorem queuesOK_setAssoc {r : RunnerState} {k : String} {q : JobQueue}
    (hr : QueuesOK r) (hq : NoDupNameFalse q.jobs) : QueuesOK (setAssoc r k q) := by
  intro qn queue h
  by_cases hk : qn = k
  · subst hk
    rw [getAssoc_setAssoc_self] at h
    cases h
    exact hq
  · rw [getAssoc_setAssoc_ne _ _ _ _ hk] at h
    exact hr qn queue h

theorem noDupNameFalse_append {l : List JobConfig} {j : JobConfig}
    (hl : NoDupNameFalse l)
    (hj : j.duplicate = true ∨ ∀ x ∈ l, x.name ≠ j.name) :
    NoDupNameFalse (l ++ [j]) := by
  unfold NoDupNameFalse at hl ⊢
  rw [List.pairwise_append]
  refine ⟨hl, List.pairwise_singleton _ _, ?_⟩
  intro a ha b hb
  simp only [List.mem_singleton] at hb
  subst hb
  intro hname
  rcases hj with hdup | hnone
  · exact Or.inr hdup
  · exact absurd hname (hnone a ha)

theorem addJob_queuesOK {r : RunnerState} (j : JobConfig) (hr : QueuesOK r) :
    QueuesOK (addJob r j) := by
  unfold addJob
  split
  · split
    · exact queuesOK_setAssoc hr (by simp [newJobQueue, NoDupNameFalse])
    · exact queuesOK_setAssoc
        (queuesOK_setAssoc hr (by simp [newJobQueue, NoDupNameFalse]))
        (by simp [newJobQueue, NoDupNameFalse])
  · rename_i queue hget
    split
    · exact hr
    · rename_i hcond
      refine queuesOK_setAssoc hr (noDupNameFalse_append (hr _ _ hget) ?_)
      by_cases hdup : j.duplicate = true
      · exact Or.inl hdup
      · refine Or.inr ?_
        have hdup' : j.duplicate = false := by
          cases hd : j.duplicate
          · rfl
          · exact absurd hd hdup
        have hany : (queue.jobs.any fun other => other.name == j.name) = false := by
          cases ha : queue.jobs.any fun other => other.name == j.name
          · rfl
          · exact absurd ⟨hdup', by exact_mod_cast ha⟩ hcond
        intro x hx
        have := List.any_eq_false.mp hany x hx
        simpa using this

theorem activateQueueHead_queuesOK {r r' : RunnerState} {q : String}
    {oj : Option JobConfig} (hr : QueuesOK r)
    (h : activateQueueHead r q = .ok (oj, r')) : QueuesOK r' := by
  unfold activateQueueHead at h
  split at h
  · exact absurd h (by simp)
  · rename_i queue hget
    split at h
    · cases h
      exact hr
    · split at h
      · cases h
        exact hr
      · rename_i job rest hjobs
        cases h
        refine queuesOK_setAssoc hr ?_
        exact hr q queue hget

theorem finishQueueHead_queuesOK {r : RunnerState} (q : String) (hr : QueuesOK r) :
    QueuesOK (finishQueueHead r q) := by
  unfold finishQueueHead
  split
  · exact hr
  · rename_i queue hget
    refine queuesOK_setAssoc hr ?_
    have := hr _ _ hget
    exact List.Pairwise.sublist (List.drop_sublist 1 queue.jobs) this

theorem reachable_queuesOK {r : RunnerState} (h : Reachable r) : QueuesOK r := by
  induction h with
  | init => exact queuesOK_nil
  | add j _ ih => exact addJob_queuesOK j ih
  | activate q oj _ hstep ih => exact activateQueueHead_queuesOK ih hstep
  | finish q _ ih => exact finishQueueHead_queuesOK q ih

/-! ## Claim C3 -/

/-- C3: picking the head of a queue returns nothing and changes nothing when
the queue is active or its waiting list is empty; otherwise it raises the
active flag and returns the head job without removing it from the waiting
list (the running job stays at the front), and only the completion step of
`runQueueHead` lowers the flag and removes the head. -/
theorem c3_pick_head_semantics (r : RunnerState) (qn : String) (queue : JobQueue)
    (hq : getAssoc r qn = some queue) :
    ((queue.activeJob = true ∨ queue.jobs = []) →
        activateQueueHead r qn = .ok (none, r))
    ∧ (∀ j rest, queue.activeJob = false → queue.jobs = j :: rest →
        activateQueueHead r qn =
          .ok (some j, setAssoc r qn { queue with activeJob := true })
        ∧ getAssoc (setAssoc r qn { queue with activeJob := true }) qn =
            some { queue with activeJob := true }
        ∧ ({ queue with activeJob := true } : JobQueue).jobs = j :: rest
        ∧ getAssoc
            (finishQueueHead (setAssoc r qn { queue with activeJob := true }) qn) qn =
            some { queue with activeJob := false, jobs := rest }) := by
  constructor
  · intro h
    have hc : queue.activeJob = true ∨ queue.jobs.length = 0 := by
      rcases h with h | h
      · exact Or.inl h
      · exact Or.inr (by simp [h])
    simp only [activateQueueHead, hq]
    rw [if_pos hc]
  · intro j rest hact hjobs
    have hc : ¬(queue.activeJob = true ∨ queue.jobs.length = 0) := by
      simp [hact, hjobs]
    have h2 : getAssoc (setAssoc r qn { queue with activeJob := true }) qn
        = some { queue with activeJob := true } := getAssoc_setAssoc_self r qn _
    refine ⟨?_, h2, by simp [hjobs], ?_⟩
    · simp only [activateQueueHead, hq]
      rw [if_neg hc, hjobs]
    · unfold finishQueueHead
      split
      · rename_i hnone
        rw [h2] at hnone
        cases hnone
      · rename_i q' hsome
        rw [h2] at hsome
        injection hsome with hsome
        subst hsome
        rw [getAssoc_setAssoc_self]
        simp [hjobs]

/-- C3 witness: a concrete inactive two-job queue; activation returns the
head without removing it, and the completion step removes exactly the
head. -/
theorem c3_witness :
    activateQueueHead c3r "q" = .ok (some wJob1, setAssoc c3r "q" { c3q with activeJob := true })
    ∧ getAssoc (finishQueueHead (setAssoc c3r "q" { c3q with activeJob := true }) "q") "q"
        = some { c3q with activeJob := false, jobs := [wJob2] } :=
  ⟨((c3_pick_head_semantics c3r "q" c3q rfl).2 wJob1 [wJob2] rfl rfl).1,
   ((c3_pick_head_semantics c3r "q" c3q rfl).2 wJob1 [wJob2] rfl rfl).2.2.2⟩

/-! ## Claim C4 -/

/-- C4: enqueuing a duplicate-forbidding job whose name is already waiting
in its queue is a silent no-op; otherwise the job is appended at the tail;
consequently, in every reachable runner state, no two waiting jobs of the
same queue that both forbid duplicates share a name. -/
theorem c4_duplicate_suppression :
    (∀ (r : RunnerState) (j : JobConfig) (queue : JobQueue),
        getAssoc r j.QueueName = some queue →
        j.duplicate = false →
        (queue.jobs.any fun other => other.name == j.name) = true →
        addJob r j = r)
    ∧ (∀ (r : RunnerState) (j : JobConfig) (queue : JobQueue),
        getAssoc r j.QueueName = some queue →
        ¬(j.duplicate = false ∧ (queue.jobs.any fun other => other.name == j.name) = true) →
        addJob r j = setAssoc r j.QueueName { queue with jobs := queue.jobs ++ [j] })
    ∧ (∀ r : RunnerState, Reachable r →
        ∀ qn queue, getAssoc r qn = some queue → NoDupNameFalse queue.jobs) := by
  refine ⟨?_, ?_, ?_⟩
  · intro r j queue hq hdup hany
    simp only [addJob, hq]
    rw [if_pos ⟨hdup, hany⟩]
  · intro r j queue hq hcond
    simp only [addJob, hq]
    rw [if_neg hcond]
  · intro r hreach qn queue hq
    exact reachable_queuesOK hreach qn queue hq

/-- C4 witness: enqueuing the duplicate-forbidding job `d` into a queue
already holding a job named `d` leaves the state unchanged, and the
invariant holds at a concretely reachable state. -/
theorem c4_witness :
    addJob c4r wDupJob = c4r
    ∧ addJob c4r wJob1 = setAssoc c4r "q" { c4q with jobs := c4q.jobs ++ [wJob1] }
    ∧ NoDupNameFalse (JobQueue.jobs { activeJob := false, jobs := [wDupJob] }) :=
  ⟨c4_duplicate_suppression.1 c4r wDupJob c4q rfl rfl rfl,
   c4_duplicate_suppression.2.1 c4r wJob1 c4q rfl (by decide),
   c4_duplicate_suppression.2.2 (addJob [] wDupJob)
     (Reachable.add wDupJob Reachable.init) "q"
     { activeJob := false, jobs := [wDupJob] } (by decide)⟩

/-! ## Scheduler-loop lemmas -/

theorem catchUpTimes_empty (current t : Nat) (h : ¬t < current) :
    catchUpTimes current t = [] := by
  rw [catchUpTimes]
  simp [h]

theorem mem_catchUpTimes_aux (current t : Nat) :
    ∀ (d t₀ : Nat), current - t₀ ≤ d →
      (t ∈ catchUpTimes current t₀ ↔ (t₀ ≤ t ∧ t < current ∧ (t - t₀) % 60 = 0)) := by
  intro d
  induction d with
  | zero =>
      intro t₀ hd
      have hlt : ¬t₀ < current := by omega
      rw [catchUpTimes_empty current t₀ hlt]
      simp only [List.not_mem_nil, false_iff]
      intro hcon
      omega
  | succ d ih =>
      intro t₀ hd
      rw [catchUpTimes]
      by_cases h : t₀ < current
      · rw [if_pos h]
        simp only [List.mem_cons]
        rw [ih (t₀ + 60) (by omega)]
        constructor
        · rintro (rfl | ⟨h1, h2, h3⟩)
          · exact ⟨Nat.le_refl t, h, by simp⟩
          · exact ⟨by omega, h2, by omega⟩
        · rintro ⟨h1, h2, h3⟩
          by_cases he : t = t₀
          · exact Or.inl he
          · exact Or.inr ⟨by omega, h2, by omega⟩
      · rw [if_neg h]
        simp only [List.not_mem_nil, false_iff]
        intro hcon
        omega

theorem mem_catchUpTimes (current t₀ t : Nat) :
    t ∈ catchUpTimes current t₀ ↔ (t₀ ≤ t ∧ t < current ∧ (t - t₀) % 60 = 0) :=
  mem_catchUpTimes_aux current t (current - t₀) t₀ (Nat.le_refl _)

theorem catchUpTimes_nodup_aux (current : Nat) :
    ∀ (d t₀ : Nat), current - t₀ ≤ d → (catchUpTimes current t₀).Nodup := by
  intro d
  induction d with
  | zero =>
      intro t₀ hd
      rw [catchUpTimes_empty current t₀ (by omega)]
      exact List.nodup_nil
  | succ d ih =>
      intro t₀ hd
      rw [catchUpTimes]
      by_cases h : t₀ < current
      · rw [if_pos h]
        refine List.Nodup.cons ?_ (ih (t₀ + 60) (by omega))
        intro hmem
        have := (mem_catchUpTimes current (t₀ + 60) t₀).mp hmem
        omega
      · rw [if_neg h]
        exact List.nodup_nil

theorem catchUpTimes_nodup (current t₀ : Nat) : (catchUpTimes current t₀).Nodup :=
  catchUpTimes_nodup_aux current (current - t₀) t₀ (Nat.le_refl _)

theorem schedule_ok_of_not_fails (j : JobConfig) (res : Except String SValue)
    (r : RunnerState) (h : schedFails j res = false) :
    ∃ r', JobConfig.schedule j res r = .ok r' := by
  unfold schedFails at h
  cases henb : j.enabled with
  | false => exact ⟨r, by simp [JobConfig.schedule, henb]⟩
  | true =>
      rw [henb, Bool.true_and] at h
      cases res with
      | error e => simp at h
      | ok v =>
          cases v with
          | bool b =>
              cases b with
              | false => exact ⟨r, by simp [JobConfig.schedule, henb]⟩
              | true => exact ⟨addJob r j, by simp [JobConfig.schedule, henb]⟩
          | int n => simp at h
          | str s => simp at h
          | noneVal => simp at h

theorem schedule_error_of_fails (j : JobConfig) (res : Except String SValue)
    (r : RunnerState) (h : schedFails j res = true) :
    j.enabled = true ∧ ∃ e, JobConfig.schedule j res r = .error e := by
  unfold schedFails at h
  cases henb : j.enabled with
  | false => rw [henb, Bool.false_and] at h; cases h
  | true =>
      rw [henb, Bool.true_and] at h
      refine ⟨rfl, ?_⟩
      cases res with
      | error e =>
          exact ⟨"failed to call should_run: " ++ e, by simp [JobConfig.schedule, henb]⟩
      | ok v =>
          cases v with
          | bool b => cases b <;> simp at h
          | int n =>
              exact ⟨"should_run returned bad value", by simp [JobConfig.schedule, henb]⟩
          | str s =>
              exact ⟨"should_run returned bad value", by simp [JobConfig.schedule, henb]⟩
          | noneVal =>
              exact ⟨"should_run returned bad value", by simp [JobConfig.schedule, henb]⟩

theorem addDue_ok_of_not_fails (jobs : List (String × JobConfig))
    (eval : String → Except String SValue) :
    ∀ r : RunnerState, (∀ p ∈ jobs, schedFails p.2 (eval p.1) = false) →
      (addDueJobsToQueue jobs eval r).err = none
      ∧ (addDueJobsToQueue jobs eval r).trace
          = (jobs.filter fun p => p.2.enabled).map Prod.fst := by
  induction jobs with
  | nil =>
      intro r _
      exact ⟨rfl, rfl⟩
  | cons hd tl ih =>
      intro r h
      obtain ⟨name, j⟩ := hd
      have hj := h _ (List.mem_cons_self _ _)
      obtain ⟨r', hr'⟩ := schedule_ok_of_not_fails j (eval name) r hj
      have htl : ∀ p ∈ tl, schedFails p.2 (eval p.1) = false :=
        fun p hp => h p (List.mem_cons_of_mem _ hp)
      obtain ⟨hihe, hiht⟩ := ih r' htl
      simp only [addDueJobsToQueue, hr']
      refine ⟨hihe, ?_⟩
      cases henb : j.enabled
      · simp [henb, hiht, List.filter_cons]
      · simp [henb, hiht, List.filter_cons]

theorem runCatchUp_trace (jobs : List (String × JobConfig))
    (eval : Nat → String → Except String SValue) :
    ∀ (times : List Nat) (r : RunnerState),
      (∀ t ∈ times, ∀ p ∈ jobs, schedFails p.2 (eval t p.1) = false) →
      (runCatchUp jobs eval times r).2.1 = none
      ∧ (runCatchUp jobs eval times r).2.2
          = times.flatMap fun t =>
              (jobs.filter fun p => p.2.enabled).map fun p => (p.1, t) := by
  intro times
  induction times with
  | nil =>
      intro r _
      exact ⟨rfl, rfl⟩
  | cons t ts ih =>
      intro r h
      have ht : ∀ p ∈ jobs, schedFails p.2 (eval t p.1) = false :=
        h t (List.mem_cons_self _ _)
      obtain ⟨hoe, hot⟩ := addDue_ok_of_not_fails jobs (eval t) r ht
      have hts : ∀ t' ∈ ts, ∀ p ∈ jobs, schedFails p.2 (eval t' p.1) = false :=
        fun t' ht' => h t' (List.mem_cons_of_mem _ ht')
      obtain ⟨hre, hrt⟩ := ih (addDueJobsToQueue jobs (eval t) r).runner hts
      simp only [runCatchUp, hoe]
      refine ⟨hre, ?_⟩
      rw [hot, hrt, List.flatMap_cons, List.map_map]
      rfl

/-! ## Claim C2 -/

/-- C2: when more than `maxMissed` has elapsed since the previous firing,
the tick performs no catch-up evaluations at all (the clamp `last = now`;
zero is within the claimed at-most-one); otherwise the evaluation instants
are exactly the minute steps from `last` within `[last, now)`, without
repetition, and with no predicate failures every enabled job is evaluated
exactly once per instant, with the instant `t` passed to the evaluation. -/
theorem c2_catch_up_bound (jobs : List (String × JobConfig))
    (eval : Nat → String → Except String SValue) (maxMissed last current : Nat)
    (r : RunnerState) :
    (current - last > maxMissed → tickEvalTimes last current maxMissed = [])
    ∧ (current - last ≤ maxMissed →
        (∀ t, t ∈ tickEvalTimes last current maxMissed ↔
            (last ≤ t ∧ t < current ∧ (t - last) % 60 = 0))
        ∧ (tickEvalTimes last current maxMissed).Nodup)
    ∧ ((∀ t, ∀ p ∈ jobs, schedFails p.2 (eval t p.1) = false) →
        (runCatchUp jobs eval (tickEvalTimes last current maxMissed) r).2.2
          = (tickEvalTimes last current maxMissed).flatMap fun t =>
              (jobs.filter fun p => p.2.enabled).map fun p => (p.1, t)) := by
  refine ⟨?_, ?_, ?_⟩
  · intro h
    unfold tickEvalTimes
    rw [if_pos h]
    exact catchUpTimes_empty current current (Nat.lt_irrefl current)
  · intro h
    have hs : tickEvalTimes last current maxMissed = catchUpTimes current last := by
      unfold tickEvalTimes
      rw [if_neg (by omega)]
    rw [hs]
    exact ⟨fun t => mem_catchUpTimes current last t, catchUpTimes_nodup current last⟩
  · intro h
    exact (runCatchUp_trace jobs eval (tickEvalTimes last current maxMissed) r
      (fun t _ => h t)).2

/-- C2 witness: with `last = 0`, `now = 150` the instants are `0, 60, 120`
each evaluating the single enabled job once; with `now - last = 3700 >`
one hour the tick evaluates nothing. -/
theorem c2_witness :
    tickEvalTimes 0 3700 3600 = []
    ∧ (60 ∈ tickEvalTimes 0 150 3600 ↔ (0 ≤ 60 ∧ 60 < 150 ∧ (60 - 0) % 60 = 0))
    ∧ (runCatchUp [("b", cJobB)] (fun _ => c1Eval) (tickEvalTimes 0 150 3600) []).2.2
        = (tickEvalTimes 0 150 3600).flatMap fun t =>
            (([("b", cJobB)].filter fun p => p.2.enabled).map fun p => (p.1, t)) :=
  ⟨(c2_catch_up_bound [] (fun _ => c1Eval) 3600 0 3700 []).1 (by omega),
   ((c2_catch_up_bound [] (fun _ => c1Eval) 3600 0 150 []).2.1 (by omega)).1 60,
   (c2_catch_up_bound [("b", cJobB)] (fun _ => c1Eval) 3600 0 150 []).2.2
     (by intro t p hp; simp at hp; subst hp; decide)⟩

/-! ## Claims C1 -/

/-- C1 counterexample: a store iterated in the order `a, b` where the
predicate of `a` returns a non-Boolean and the predicate of `b` returns
`True` at every instant.  The error is attributed to `a`, but the predicate
of `b` is not evaluated during that tick, `b` is not enqueued, and the
scheduler loop stops after the first firing instead of continuing. -/
theorem c1_counterexample :
    (addDueJobsToQueue c1Jobs c1Eval []).err.map JobError.jobName = some "a"
    ∧ (addDueJobsToQueue c1Jobs c1Eval []).trace = ["a"]
    ∧ getAssoc (addDueJobsToQueue c1Jobs c1Eval []).runner "b" = none
    ∧ (scheduleRun c1Jobs (fun _ => c1Eval) maxMissedTime 0 [60, 120] []).processed
        = [60] := by
  refine ⟨by decide, by decide, by decide, ?_⟩
  have ht : tickEvalTimes 0 60 maxMissedTime = [0] := by
    simp [tickEvalTimes, catchUpTimes, maxMissedTime]
  simp only [scheduleRun, ht]
  decide

/-- C1 corrected: a per-job predicate error is wrapped with the job name
(so the caller logs it under that name), but it aborts the tick — the jobs
after the failing one in the iteration order are not evaluated — and it
aborts the scheduler loop: no later firing is processed (the loop is not
restarted). -/
theorem c1_amended (pre : List (String × JobConfig)) (name : String) (j : JobConfig)
    (post : List (String × JobConfig)) (eval : String → Except String SValue)
    (r : RunnerState)
    (hpre : ∀ p ∈ pre, schedFails p.2 (eval p.1) = false)
    (hfail : schedFails j (eval name) = true) :
    ((addDueJobsToQueue (pre ++ (name, j) :: post) eval r).err.map JobError.jobName
        = some name)
    ∧ ((addDueJobsToQueue (pre ++ (name, j) :: post) eval r).trace
        = (pre.filter fun p => p.2.enabled).map Prod.fst ++ [name])
    ∧ (∀ (jobs₀ : List (String × JobConfig)) (g : Nat → String → Except String SValue)
          (last c : Nat) (rest : List Nat) (r₀ : RunnerState) (e : JobError),
        (runCatchUp jobs₀ g (tickEvalTimes last c maxMissedTime) r₀).2.1 = some e →
        (scheduleRun jobs₀ g maxMissedTime last (c :: rest) r₀).processed = [c]) := by
  have main : ∀ (pre : List (String × JobConfig)) (r : RunnerState),
      (∀ p ∈ pre, schedFails p.2 (eval p.1) = false) →
      ((addDueJobsToQueue (pre ++ (name, j) :: post) eval r).err.map JobError.jobName
          = some name)
      ∧ ((addDueJobsToQueue (pre ++ (name, j) :: post) eval r).trace
          = (pre.filter fun p => p.2.enabled).map Prod.fst ++ [name]) := by
    intro pre
    induction pre with
    | nil =>
        intro r _
        obtain ⟨henb, e, he⟩ := schedule_error_of_fails j (eval name) r hfail
        simp only [List.nil_append, addDueJobsToQueue, he, henb]
        exact ⟨rfl, rfl⟩
    | cons hd tl ih =>
        intro r h
        obtain ⟨pname, pj⟩ := hd
        have hp := h _ (List.mem_cons_self _ _)
        obtain ⟨r', hr'⟩ := schedule_ok_of_not_fails pj (eval pname) r hp
        have htl : ∀ p ∈ tl, schedFails p.2 (eval p.1) = false :=
          fun p hmem => h p (List.mem_cons_of_mem _ hmem)
        obtain ⟨ihe, iht⟩ := ih r' htl
        simp only [List.cons_append, addDueJobsToQueue, hr']
        refine ⟨ihe, ?_⟩
        cases henb : pj.enabled
        · simp [henb, iht, List.filter_cons]
        · simp [henb, iht, List.filter_cons]
  obtain ⟨h1, h2⟩ := main pre r hpre
  refine ⟨h1, h2, ?_⟩
  intro jobs₀ g last c rest r₀ e he
  revert he
  simp only [scheduleRun]
  cases runCatchUp jobs₀ g (tickEvalTimes last c maxMissedTime) r₀ with
  | mk r' p =>
      cases p with
      | mk err' tr =>
          intro he
          change err' = some e at he
          subst he
          rfl

/-- C1 amended-claim witness: the concrete two-job store with the failing
`a`; the error is named after `a` and only `a` was evaluated. -/
theorem c1_amended_witness :
    (addDueJobsToQueue ([] ++ ("a", cJobA) :: [("b", cJobB)]) c1Eval []).err.map
        JobError.jobName = some "a"
    ∧ (addDueJobsToQueue ([] ++ ("a", cJobA) :: [("b", cJobB)]) c1Eval []).trace
        = (([] : List (String × JobConfig)).filter fun p => p.2.enabled).map
            Prod.fst ++ ["a"] :=
  ⟨(c1_amended [] "a" cJobA [("b", cJobB)] c1Eval [] (by simp) (by decide)).1,
   (c1_amended [] "a" cJobA [("b", cJobB)] c1Eval [] (by simp) (by decide)).2.1⟩

/-! ## Claim C6 -/

/-- C6: for an enabled job, exactly `True` from the `should_run` call
enqueues the job, exactly `False` leaves the queue unchanged with no error,
and any other return value is a predicate error with the job not enqueued
for that tick. -/
theorem c6_predicate_return_contract (j : JobConfig) (r : RunnerState)
    (h : j.enabled = true) :
    JobConfig.schedule j (.ok (.bool true)) r = .ok (addJob r j)
    ∧ JobConfig.schedule j (.ok (.bool false)) r = .ok r
    ∧ (∀ v : SValue, (∀ b, v ≠ .bool b) →
        JobConfig.schedule j (.ok v) r = .error "should_run returned bad value")
    ∧ (∀ (name : String) (v : SValue), (∀ b, v ≠ SValue.bool b) →
        (addDueJobsToQueue [(name, j)] (fun _ => .ok v) r).runner = r
        ∧ (addDueJobsToQueue [(name, j)] (fun _ => .ok v) r).err.isSome = true) := by
  have hbad : ∀ v : SValue, (∀ b, v ≠ SValue.bool b) →
      JobConfig.schedule j (.ok v) r = .error "should_run returned bad value" := by
    intro v hv
    cases v with
    | bool b => exact absurd rfl (hv b)
    | int n => simp [JobConfig.schedule, h]
    | str s => simp [JobConfig.schedule, h]
    | noneVal => simp [JobConfig.schedule, h]
  refine ⟨by simp [JobConfig.schedule, h], by simp [JobConfig.schedule, h], hbad, ?_⟩
  intro name v hv
  simp [addDueJobsToQueue, hbad v hv, h]

/-- C6 witness: a concrete enabled job; an integer return value errors and
does not enqueue. -/
theorem c6_witness :
    JobConfig.schedule wJob1 (.ok (.bool true)) [] = .ok (addJob [] wJob1)
    ∧ JobConfig.schedule wJob1 (.ok (.bool false)) [] = .ok []
    ∧ JobConfig.schedule wJob1 (.ok (.int 1)) [] = .error "should_run returned bad value"
    ∧ (addDueJobsToQueue [("w1", wJob1)] (fun _ => .ok (.int 1)) []).runner = [] :=
  ⟨(c6_predicate_return_contract wJob1 [] rfl).1,
   (c6_predicate_return_contract wJob1 [] rfl).2.1,
   (c6_predicate_return_contract wJob1 [] rfl).2.2.1 (.int 1) (by intro b hb; cases hb),
   ((c6_predicate_return_contract wJob1 [] rfl).2.2.2 "w1" (.int 1)
     (by intro b hb; cases hb)).1⟩

/-! ## Claim C5 -/

/-- Whatever the module assigns, the enabled flag computed by `loadJob` is
true: the final statement recomputes it from the predeclared dictionary,
which a module-level assignment never mutates. -/
theorem loadJobEnabled_always_true (m : StarModule) (b : Bool)
    (hm : loadJobEnabled m = .ok b) : b = true := by
  unfold loadJobEnabled at hm
  split at hm
  · cases hm
  · injection hm with hm
    rw [← hm]
    rfl

/-- C5 is a code bug; this theorem evaluates the code at the failing input:
a module that assigns `enabled = False` loads with the enabled flag true,
and the resulting (wrongly enabled) job is enqueued when its predicate
returns `True` — the claim expects it to load disabled and never be
enqueued. -/
theorem c5_enabled_assignment_ignored :
    loadJobEnabled { assigns := [("enabled", SValue.bool false)] } = .ok true
    ∧ (addDueJobsToQueue [("dj", disabledIntentJob)]
        (fun _ => .ok (.bool true)) []).runner
        = [("dj", { activeJob := false, jobs := [disabledIntentJob] })] :=
  ⟨rfl, by decide⟩

/-! ## Claim C10 -/

/-- Shape lemma for `updateJob`: either it fails and returns the store
untouched, or it succeeds and replaces exactly the entry under the job
name. -/
theorem updateJob_shape (store : List (String × JobConfig)) (jobName jobDir : String)
    (osEnv : List (String × String)) (globalLoad jobLoad : EnvLoadResult)
    (loadJobFn : List (String × String) → Except String JobConfig) :
    ((updateJob store jobName jobDir osEnv globalLoad jobLoad loadJobFn).err.isSome = true
      ∧ (updateJob store jobName jobDir osEnv globalLoad jobLoad loadJobFn).store = store
      ∧ (updateJob store jobName jobDir osEnv globalLoad jobLoad loadJobFn).job = none)
    ∨ (∃ job, (updateJob store jobName jobDir osEnv globalLoad jobLoad loadJobFn).job = some job
      ∧ (updateJob store jobName jobDir osEnv globalLoad jobLoad loadJobFn).err = none
      ∧ (updateJob store jobName jobDir osEnv globalLoad jobLoad loadJobFn).store
          = setAssoc store jobName job) := by
  unfold updateJob
  split
  · exact Or.inl ⟨rfl, rfl, rfl⟩
  · split
    · exact Or.inl ⟨rfl, rfl, rfl⟩
    · split
      · exact Or.inl ⟨rfl, rfl, rfl⟩
      · rename_i job hjob
        exact Or.inr ⟨job, rfl, rfl, rfl⟩

/-- C10: when `update` fails (malformed env file or failed module load),
the job store is left exactly as it was; on success, exactly the entry
under the job name is replaced and all other entries are unchanged. -/
theorem c10_update_atomicity (store : List (String × JobConfig)) (jobName jobDir : String)
    (osEnv : List (String × String)) (globalLoad jobLoad : EnvLoadResult)
    (loadJobFn : List (String × String) → Except String JobConfig) :
    (∀ msg, (updateJob store jobName jobDir osEnv globalLoad jobLoad loadJobFn).err = some msg →
        (updateJob store jobName jobDir osEnv globalLoad jobLoad loadJobFn).store = store)
    ∧ (∀ job, (updateJob store jobName jobDir osEnv globalLoad jobLoad loadJobFn).job = some job →
        getAssoc (updateJob store jobName jobDir osEnv globalLoad jobLoad loadJobFn).store jobName
          = some job
        ∧ ∀ n, n ≠ jobName →
            getAssoc (updateJob store jobName jobDir osEnv globalLoad jobLoad loadJobFn).store n
              = getAssoc store n) := by
  rcases updateJob_shape store jobName jobDir osEnv globalLoad jobLoad loadJobFn with
    ⟨_, hst, hj⟩ | ⟨job, hj, he, hst⟩
  · constructor
    · intro msg _
      exact hst
    · intro job hjob
      rw [hj] at hjob
      cases hjob
  · constructor
    · intro msg hmsg
      rw [he] at hmsg
      cases hmsg
    · intro job₀ hjob₀
      rw [hj] at hjob₀
      injection hjob₀ with hjob₀
      subst hjob₀
      rw [hst]
      exact ⟨getAssoc_setAssoc_self store jobName job,
        fun n hn => getAssoc_setAssoc_ne store jobName n job hn⟩

/-- C10 witness: a failing update (malformed job env file) leaves a
one-entry store unchanged; a successful update replaces exactly the
targeted entry. -/
theorem c10_witness :
    (updateJob [("old", wJob2)] "old" "/cfg/old" [] .notExist (.err "bad line")
        (fun _ => .ok wJob1)).store = [("old", wJob2)]
    ∧ getAssoc (updateJob [("old", wJob2)] "old" "/cfg/old" [] .notExist .notExist
        (fun _ => .ok wJob1)).store "old" = some wJob1 :=
  ⟨(c10_update_atomicity [("old", wJob2)] "old" "/cfg/old" [] .notExist (.err "bad line")
      (fun _ => .ok wJob1)).1 "failed to load job env file: bad line" rfl,
   ((c10_update_atomicity [("old", wJob2)] "old" "/cfg/old" [] .notExist .notExist
      (fun _ => .ok wJob1)).2 wJob1 rfl).1⟩

/-! ## Completion-store lemmas -/

theorem saveLogFileLines_ok (oracle : Nat → Bool) (jobId : Nat) (logName : String) :
    ∀ (lines : List String) (lineNum k : Nat) (tx tx' : TxState) (k' : Nat),
      saveLogFileLines oracle jobId logName lines lineNum k tx = (.ok tx', k') →
      tx'.rows = tx.rows
      ∧ tx'.logRows = tx.logRows ++ (lines.enumFrom lineNum).map fun q =>
          { completedJobId := jobId, logName := logName,
            lineNumber := q.1, line := q.2 } := by
  intro lines
  induction lines with
  | nil =>
      intro lineNum k tx tx' k' h
      simp only [saveLogFileLines] at h
      injection h with h1 h2
      injection h1 with h1
      subst h1
      simp [List.enumFrom]
  | cons line rest ih =>
      intro lineNum k tx tx' k' h
      simp only [saveLogFileLines] at h
      split at h
      · obtain ⟨hrows, hlogs⟩ := ih (lineNum + 1) (k + 1) _ tx' k' h
        refine ⟨hrows, ?_⟩
        rw [hlogs]
        simp [List.enumFrom]
      · simp at h

theorem saveLogFile_ok (oracle : Nat → Bool) (jobId : Nat) (logName : String)
    (file : Option (List String)) (k : Nat) (tx tx' : TxState) (k' : Nat)
    (h : saveLogFile oracle jobId logName file k tx = (.ok tx', k')) :
    tx'.rows = tx.rows
    ∧ tx'.logRows = tx.logRows ++ ((file.getD []).enumFrom 1).map fun q =>
        { completedJobId := jobId, logName := logName,
          lineNumber := q.1, line := q.2 } := by
  cases file with
  | none =>
      simp only [saveLogFile] at h
      injection h with h1 h2
      injection h1 with h1
      subst h1
      simp [List.enumFrom]
  | some lines =>
      exact saveLogFileLines_ok oracle jobId logName lines 1 k tx tx' k' h

theorem saveLogFiles_ok (oracle : Nat → Bool) (jobId : Nat) :
    ∀ (logs : List (String × Option (List String))) (k : Nat) (tx tx' : TxState) (k' : Nat),
      saveLogFiles oracle jobId logs k tx = (.ok tx', k') →
      tx'.rows = tx.rows ∧ tx'.logRows = tx.logRows ++ expectedLogRows jobId logs := by
  intro logs
  induction logs with
  | nil =>
      intro k tx tx' k' h
      simp only [saveLogFiles] at h
      injection h with h1 h2
      injection h1 with h1
      subst h1
      simp [expectedLogRows]
  | cons hd tl ih =>
      intro k tx tx' k' h
      obtain ⟨nm, file⟩ := hd
      simp only [saveLogFiles] at h
      split at h
      · rename_i tx₂ k₂ hfile
        obtain ⟨hrows₂, hlogs₂⟩ := saveLogFile_ok oracle jobId nm file k tx tx₂ k₂ hfile
        obtain ⟨hrows, hlogs⟩ := ih k₂ tx₂ tx' k' h
        refine ⟨hrows.trans hrows₂, ?_⟩
        rw [hlogs, hlogs₂]
        simp [expectedLogRows, List.flatMap_cons]
      · simp at h

/-- Database state after a successful `saveCompletedJob`. -/
theorem saveCompletedJob_ok_state (oracle : Nat → Bool) (db : DBState)
    (jobName : String) (cj : CompletedJob)
    (logs : List (String × Option (List String)))
    (h : (saveCompletedJob oracle db jobName cj logs).1 = .ok ()) :
    (saveCompletedJob oracle db jobName cj logs).2 =
      { completedJobs := db.completedJobs ++
          [{ id := db.nextId, jobName := jobName, error := cj.error,
             exitStatus := cj.exitStatus, started := cj.started,
             finished := cj.finished }],
        jobLogs := db.jobLogs ++ expectedLogRows db.nextId logs,
        nextId := db.nextId + 1 } := by
  unfold saveCompletedJob at h ⊢
  by_cases h0 : oracle 0 = false
  · rw [if_pos h0] at h
    simp at h
  · rw [if_neg h0] at h ⊢
    split at h
    · simp at h
    · rename_i tx' k heq
      by_cases hc : oracle k = true
      · obtain ⟨hrows, hlogs⟩ := saveLogFiles_ok oracle db.nextId logs 1 _ tx' k heq
        rw [if_pos hc, hrows, hlogs]
        simp
      · rw [if_neg hc] at h
        simp at h

/-- On any error, `saveCompletedJob` returns the database unchanged. -/
theorem saveCompletedJob_error_state (oracle : Nat → Bool) (db : DBState)
    (jobName : String) (cj : CompletedJob)
    (logs : List (String × Option (List String))) (e : String)
    (h : (saveCompletedJob oracle db jobName cj logs).1 = .error e) :
    (saveCompletedJob oracle db jobName cj logs).2 = db := by
  unfold saveCompletedJob at h ⊢
  by_cases h0 : oracle 0 = false
  · rw [if_pos h0]
  · rw [if_neg h0] at h ⊢
    split at h
    · rfl
    · rename_i tx' k heq
      by_cases hc : oracle k = true
      · rw [if_pos hc] at h
        simp at h
      · rw [if_neg hc]

theorem rowMaxId_append_last (l : List CompletedRow) (r : CompletedRow)
    (h : ∀ x ∈ l, x.id < r.id) : rowMaxId (l ++ [r]) = some r := by
  induction l with
  | nil => simp [rowMaxId]
  | cons x xs ih =>
      have hx := h x (List.mem_cons_self _ _)
      have ih' := ih fun y hy => h y (List.mem_cons_of_mem _ hy)
      have hnot : ¬x.id > r.id := by omega
      rw [List.cons_append]
      simp only [rowMaxId]
      rw [ih']
      simp [hnot]

/-! ## Claim C7 -/

/-- C7: a failed save (failed row insert, failed log-line insert, or failed
commit) returns an error and leaves the store unchanged — no new
completed-jobs row and no new log rows are visible; a successful save
appends exactly the one row and the numbered lines of each existing log
file, and bumps the primary key. -/
theorem c7_save_atomicity (oracle : Nat → Bool) (db : DBState) (jobName : String)
    (cj : CompletedJob) (logs : List (String × Option (List String))) :
    (∀ e, (saveCompletedJob oracle db jobName cj logs).1 = .error e →
        (saveCompletedJob oracle db jobName cj logs).2 = db)
    ∧ ((saveCompletedJob oracle db jobName cj logs).1 = .ok () →
        (saveCompletedJob oracle db jobName cj logs).2 =
          { completedJobs := db.completedJobs ++
              [{ id := db.nextId, jobName := jobName, error := cj.error,
                 exitStatus := cj.exitStatus, started := cj.started,
                 finished := cj.finished }],
            jobLogs := db.jobLogs ++ expectedLogRows db.nextId logs,
            nextId := db.nextId + 1 }) :=
  ⟨fun e he => saveCompletedJob_error_state oracle db jobName cj logs e he,
   fun h => saveCompletedJob_ok_state oracle db jobName cj logs h⟩

/-- C7 witness: a save whose very first insert fails leaves the concrete
store unchanged; a fully successful save appends the row and the log
lines. -/
theorem c7_witness :
    (saveCompletedJob (fun _ => false) { completedJobs := [], jobLogs := [], nextId := 0 }
        "a" { error := "", exitStatus := 0, started := 1, finished := 2 }
        [("stdout", some ["x"])]).2
      = { completedJobs := [], jobLogs := [], nextId := 0 }
    ∧ (saveCompletedJob (fun _ => true) { completedJobs := [], jobLogs := [], nextId := 0 }
        "a" { error := "", exitStatus := 0, started := 1, finished := 2 }
        [("stdout", some ["x"])]).2
      = { completedJobs := [{ id := 0, jobName := "a", error := "",
                              exitStatus := 0, started := 1, finished := 2 }],
          jobLogs := expectedLogRows 0 [("stdout", some ["x"])],
          nextId := 1 } :=
  ⟨(c7_save_atomicity (fun _ => false) { completedJobs := [], jobLogs := [], nextId := 0 }
      "a" { error := "", exitStatus := 0, started := 1, finished := 2 }
      [("stdout", some ["x"])]).1 "failed to insert completed job" rfl,
   (c7_save_atomicity (fun _ => true) { completedJobs := [], jobLogs := [], nextId := 0 }
      "a" { error := "", exitStatus := 0, started := 1, finished := 2 }
      [("stdout", some ["x"])]).2 rfl⟩

/-! ## Claim C8 -/

/-- C8: after a successful save under a name, `getLastCompleted` of that
name returns a record with the saved error message, exit status, started
and finished values; for a name with no saved completions it returns
nothing rather than an error. -/
theorem c8_durability_roundtrip (oracle : Nat → Bool) (db : DBState)
    (jobName : String) (cj : CompletedJob)
    (logs : List (String × Option (List String)))
    (hwf : wfDB db)
    (hok : (saveCompletedJob oracle db jobName cj logs).1 = .ok ()) :
    getLastCompleted (saveCompletedJob oracle db jobName cj logs).2 jobName = some cj
    ∧ ∀ (db₀ : DBState) (n : String),
        (∀ row ∈ db₀.completedJobs, row.jobName ≠ n) →
        getLastCompleted db₀ n = none := by
  constructor
  · rw [saveCompletedJob_ok_state oracle db jobName cj logs hok]
    unfold getLastCompleted
    rw [List.filter_append]
    have hnew : List.filter (fun r : CompletedRow => r.jobName == jobName)
        ([{ id := db.nextId, jobName := jobName, error := cj.error,
            exitStatus := cj.exitStatus, started := cj.started,
            finished := cj.finished }] : List CompletedRow) =
        ([{ id := db.nextId, jobName := jobName, error := cj.error,
            exitStatus := cj.exitStatus, started := cj.started,
            finished := cj.finished }] : List CompletedRow) := by
      simp
    rw [hnew, rowMaxId_append_last]
    · rfl
    · intro x hx
      have hmem := (List.mem_filter.mp hx).1
      exact hwf x hmem
  · intro db₀ n hnone
    have hfil : db₀.completedJobs.filter (fun r => r.jobName == n) = [] := by
      rw [List.filter_eq_nil_iff]
      intro a ha
      simp [hnone a ha]
    unfold getLastCompleted
    rw [hfil]
    rfl

/-- C8 witness: saving a concrete record into the empty store and reading
it back; a never-saved name reads back as nothing. -/
theorem c8_witness :
    getLastCompleted (saveCompletedJob (fun _ => true)
        { completedJobs := [], jobLogs := [], nextId := 0 } "a"
        { error := "boom", exitStatus := 3, started := 5, finished := 9 }
        [("stdout", some ["x"])]).2 "a"
      = some { error := "boom", exitStatus := 3, started := 5, finished := 9 }
    ∧ getLastCompleted { completedJobs := [], jobLogs := [], nextId := 0 } "z" = none :=
  ⟨(c8_durability_roundtrip (fun _ => true)
      { completedJobs := [], jobLogs := [], nextId := 0 } "a"
      { error := "boom", exitStatus := 3, started := 5, finished := 9 }
      [("stdout", some ["x"])] (by intro r hr; simp at hr) rfl).1,
   (c8_durability_roundtrip (fun _ => true)
      { completedJobs := [], jobLogs := [], nextId := 0 } "a"
      { error := "boom", exitStatus := 3, started := 5, finished := 9 }
      [("stdout", some ["x"])] (by intro r hr; simp at hr) rfl).2
      { completedJobs := [], jobLogs := [], nextId := 0 } "z"
      (by intro row hrow; simp at hrow)⟩

/-! ## Claim C9 -/

/-- C9: the notifier is invoked exactly when the mode is `always`, or the
mode is `on-failure` and the record has a nonzero exit status or a nonempty
error message; with mode `never`, or mode `on-failure` on a success, the
notifier is not invoked and no error is returned. -/
theorem c9_notification_decision (notify : String → CompletedJob → Except String Unit)
    (mode : NotifyMode) (jobName : String) (cj : CompletedJob) :
    ((notifyIfNeeded notify mode jobName cj).1 = true ↔
        (mode = .always ∨ (mode = .onFailure ∧ (cj.exitStatus ≠ 0 ∨ cj.error ≠ ""))))
    ∧ ((mode = .never ∨ (mode = .onFailure ∧ cj.IsSuccess = true)) →
        notifyIfNeeded notify mode jobName cj = (false, .ok ()))
    ∧ ((notifyIfNeeded notify mode jobName cj).1 = true →
        (notifyIfNeeded notify mode jobName cj).2 = notify jobName cj) := by
  have hsucc : cj.IsSuccess = true ↔ (cj.exitStatus = 0 ∧ cj.error = "") := by
    simp [CompletedJob.IsSuccess]
  refine ⟨?_, ?_, ?_⟩
  · cases mode <;> by_cases hs : cj.IsSuccess = true <;>
      (simp_all [notifyIfNeeded]; try tauto)
  · intro h
    rcases h with h | ⟨h, hs⟩
    · subst h
      simp [notifyIfNeeded]
    · subst h
      simp [notifyIfNeeded, hs]
  · cases mode <;> by_cases hs : cj.IsSuccess = true <;>
      simp_all [notifyIfNeeded]

/-- C9 witness: a failed job with mode `on-failure` invokes the notifier;
a successful job with mode `on-failure` does not and returns no error. -/
theorem c9_witness :
    ((notifyIfNeeded (fun _ _ => .ok ()) .onFailure "j"
        { error := "", exitStatus := 7, started := 0, finished := 1 }).1 = true
      ↔ (NotifyMode.onFailure = .always ∨ (NotifyMode.onFailure = .onFailure ∧
            ((7 : Int) ≠ 0 ∨ ("" : String) ≠ ""))))
    ∧ notifyIfNeeded (fun _ _ => .ok ()) .onFailure "j"
        { error := "", exitStatus := 0, started := 0, finished := 1 } = (false, .ok ()) :=
  ⟨(c9_notification_decision (fun _ _ => .ok ()) .onFailure "j"
      { error := "", exitStatus := 7, started := 0, finished := 1 }).1,
   (c9_notification_decision (fun _ _ => .ok ()) .onFailure "j"
      { error := "", exitStatus := 0, started := 0, finished := 1 }).2.1
     (Or.inr ⟨rfl, by decide⟩)⟩

end Regular
